import Mathlib

/-!
Verification development for the etc-copilot chat web part
(`src/webparts/chat/components/ChatStorageSharePoint.ts`,
`src/webparts/chat/components/ChatStorage.ts`, `IChatProps.ts`).

The TypeScript source is shallowly embedded: JavaScript strings are Lean
`String`s (a JS string is its sequence of code units; `slice`, `includes`,
`startsWith`, `endsWith` are modelled on `String.data`), `undefined`-able
fields are `Option`s, thrown errors are `Except.error`, and the external
collaborators (file decoders, the SharePoint REST endpoints, the JS `Date`
ISO codec) are explicit parameters.
-/

set_option maxHeartbeats 1000000
set_option maxRecDepth 100000

deriving instance DecidableEq for Except

namespace EtcCopilot

/-! ## JS string primitives -/

/-- JS `String.prototype.slice(0, k)`: the first `k` units of the string. -/
def jsTake (s : String) (k : Nat) : String := ⟨s.data.take k⟩

/-- JS `String.prototype.includes(pat)`. -/
def jsIncludes (s pat : String) : Bool := decide (pat.data <:+: s.data)

/-- JS `String.prototype.startsWith(pat)`. -/
def jsStartsWith (s pat : String) : Bool := pat.data.isPrefixOf s.data

/-- JS `String.prototype.endsWith(pat)`. -/
def jsEndsWith (s pat : String) : Bool := pat.data.isSuffixOf s.data

/-- JS `String.prototype.trim()` (ASCII whitespace suffices here). -/
def jsTrim (s : String) : String :=
  ⟨((s.data.dropWhile Char.isWhitespace).reverse.dropWhile Char.isWhitespace).reverse⟩

/-- JS `String.prototype.toLowerCase()`. -/
def jsToLower (s : String) : String := ⟨s.data.map Char.toLower⟩

/-- JS `Array.prototype.lastIndexOf` for characters: -1 when absent. -/
def jsLastIndexOf (l : List Char) (c : Char) : Int :=
  match l.reverse.findIdx? (· == c) with
  | some i => ((l.length - 1 - i : Nat) : Int)
  | none => -1

/-- JS `String.prototype.slice(start)` with a possibly negative start. -/
def jsSliceFrom (l : List Char) (start : Int) : List Char :=
  if start < 0 then l.drop (((l.length : Int) + start).toNat)
  else l.drop start.toNat

/-! ## Data model (`IChatProps.ts`) -/

inductive Role where
  | user
  | assistant
deriving DecidableEq

/-- One entry of `fileTexts`: extracted text of an attached document. -/
structure FileTextEntry where
  name : String
  text : String
deriving DecidableEq

/-- `IChatMessage`: in-memory message. `timestamp` is the JS `Date`,
modelled by its time value (milliseconds since the epoch). -/
structure ChatMessage where
  id : String
  role : Role
  content : String
  timestamp : Int
  imageDataUrls : Option (List String)
  fileTexts : Option (List FileTextEntry)
  otherFileNames : Option (List String)
deriving DecidableEq

/-- `IStoredMessage`: as persisted, `timestamp` an ISO string. -/
structure StoredMessage where
  id : String
  role : Role
  content : String
  timestamp : String
  imageDataUrls : Option (List String)
  fileTexts : Option (List FileTextEntry)
  otherFileNames : Option (List String)
deriving DecidableEq

/-- `IProject`. -/
structure Project where
  id : String
  name : String
  createdAt : String
deriving DecidableEq

/-- `IStoredChat`. -/
structure StoredChat where
  id : String
  projectId : String
  title : String
  messages : List StoredMessage
  createdAt : String
  updatedAt : String
deriving DecidableEq

/-- The JS `Date` ISO round trip (`toISOString` / `new Date(s).getTime()`),
an external runtime facility: any encoding of time values into strings
whose parser is a left inverse (true of `Date` for valid dates). -/
structure DateCodec where
  toISO : Int → String
  parse : String → Int
  parse_toISO : ∀ t, parse (toISO t) = t

/-! ## `ChatStorage.ts` conversions -/

/-- `messageToStored` (ChatStorage.ts:99). Under the declared types the
timestamp is always a `Date`, so the `typeof m.timestamp === 'string'`
branch is dead and `toISOString` is applied. -/
def messageToStored (c : DateCodec) (m : ChatMessage) : StoredMessage :=
  { id := m.id
    role := m.role
    content := m.content
    timestamp := c.toISO m.timestamp
    imageDataUrls := m.imageDataUrls
    fileTexts := m.fileTexts
    otherFileNames := m.otherFileNames }

/-- `storedToMessage` (ChatStorage.ts:111): `new Date(s.timestamp)`. -/
def storedToMessage (c : DateCodec) (s : StoredMessage) : ChatMessage :=
  { id := s.id
    role := s.role
    content := s.content
    timestamp := c.parse s.timestamp
    imageDataUrls := s.imageDataUrls
    fileTexts := s.fileTexts
    otherFileNames := s.otherFileNames }

/-! ## Model-selection heuristic (`suggestModelFromContent`) -/

inductive Suggestion where
  | simple
  | complex
deriving DecidableEq

/-- The keyword list of `suggestModelFromContent` (ChatStorageSharePoint.ts:318). -/
def complexKeywords : List String :=
  ["step by step", "explain in detail", "compare and contrast", "analyze", "write code",
   "implement", "debug", "function that", "essay", "outline", "compare", "contrast",
   "pros and cons", "critically", "reasoning", "proof", "derive", "algorithm"]

/-- `suggestModelFromContent` (ChatStorageSharePoint.ts:314). -/
def suggestModelFromContent (text : String) (hasAttachments : Bool) : Suggestion :=
  let t := jsToLower (jsTrim text)
  if 400 < t.length then .complex
  else if hasAttachments then .complex
  else if complexKeywords.any (fun kw => jsIncludes t kw) then .complex
  else .simple

/-! ## Streaming accumulation and finalization (`sendMessage`, lines 944-973) -/

/-- The stream loop's `fullContent` accumulator: each parsed event's
`choices[0].delta.content` is `none` when absent; `if (delta)` skips
falsy (absent or empty) deltas. -/
def accumulateDeltas (deltas : List (Option String)) : String :=
  deltas.foldl
    (fun acc d => match d with
      | some s => if s ≠ "" then acc ++ s else acc
      | none => acc) ""

/-- Lines 970: `if (!fullContent.trim()) fullContent = 'No response.';` -/
def finalizeStreamContent (fullContent : String) : String :=
  if jsTrim fullContent = "" then "No response." else fullContent

/-- The `setMessages(prev.map(...))` update targeting the assistant
placeholder by id (lines 971-973). -/
def applyContentToMessages (msgs : List ChatMessage) (plId : String) (content : String) :
    List ChatMessage :=
  msgs.map fun m => if m.id = plId then { m with content := content } else m

/-! ## Attachment extractor (`onFileChange`, ChatStorageSharePoint.ts:681-743)

A `File` is modelled by its metadata plus the outcome of the one external
reader/decoder relevant to it (`FileReader.readAsDataURL` for images,
`pdfToText`/`docxToText`/`xlsxToText`/`fileToText` otherwise): `.ok` is the
produced data URL or extracted text, `.error` a thrown message. -/

structure FileInput where
  name : String
  type : String
  size : Nat
  content : Except String String

/-- Policy constants (ChatStorageSharePoint.ts:187-190). -/
def MAX_FILES_PER_MESSAGE : Nat := 10

def MAX_IMAGE_SIZE_BYTES : Nat := 4 * 1024 * 1024

def MAX_FILE_SIZE_BYTES : Nat := 10 * 1024 * 1024

def MAX_TOTAL_TEXT_CHARS : Nat := 80000

/-- The marker appended on truncation (lines 701, 708, 715, 722). -/
def truncationMarker : String := "\n...[truncated]"

/-- `isImageFile` (line 214). -/
def isImageFile (f : FileInput) : Bool := jsStartsWith f.type "image/"

/-- `isPdfFile` (line 232). -/
def isPdfFile (f : FileInput) : Bool :=
  f.type = "application/pdf" || jsEndsWith (jsToLower f.name) ".pdf"

/-- `isDocxFile` (line 236). -/
def isDocxFile (f : FileInput) : Bool :=
  jsToLower f.type = "application/vnd.openxmlformats-officedocument.wordprocessingml.document"
    || jsEndsWith (jsToLower f.name) ".docx"

/-- `isXlsxFile` (line 242). -/
def isXlsxFile (f : FileInput) : Bool :=
  jsToLower f.type = "application/vnd.openxmlformats-officedocument.spreadsheetml.sheet"
    || jsEndsWith (jsToLower f.name) ".xlsx"
    || jsEndsWith (jsToLower f.name) ".xls"

/-- The extension list of `isLikelyTextFile` (line 224). -/
def textExtensionsList : List String :=
  [".txt", ".md", ".csv", ".tsv", ".json", ".html", ".htm", ".xml", ".js", ".ts", ".tsx", ".jsx",
   ".log", ".yml", ".yaml", ".ini", ".cfg", ".conf", ".env", ".properties", ".sql", ".rtf",
   ".csv", ".tex", ".rst", ".asciidoc", ".adoc"]

/-- `isLikelyTextFile` (line 219): `name.slice(name.lastIndexOf('.'))`,
including the JS behaviour of `slice(-1)` when there is no dot. -/
def isLikelyTextFile (f : FileInput) : Bool :=
  let t := jsToLower f.type
  let name := jsToLower f.name
  if jsStartsWith t "text/" || t = "application/json" || t = "application/javascript"
      || t = "application/xml" || t = "application/rtf" then true
  else
    let ext := jsSliceFrom name.data (jsLastIndexOf name.data '.')
    (textExtensionsList.map String.data).contains ext

/-- `IChatAttachment` after the `onFileChange` loop; of the original
`File` object only the name is relevant afterwards. -/
structure Attachment where
  name : String
  dataUrl : Option String := none
  textContent : Option String := none
  extractionError : Option String := none
deriving DecidableEq

/-- The shared body of the four extraction branches (lines 698-725): await
the decoder, truncate against the remaining budget, account the length.
The four source branches are textually identical apart from which decoder
they call, which is abstracted into `FileInput.content`. -/
def extractWithBudget (f : FileInput) (totalChars : Nat) : Attachment × Nat :=
  match f.content with
  | .ok text =>
    let truncated :=
      if MAX_TOTAL_TEXT_CHARS - totalChars < text.length then
        jsTake text (MAX_TOTAL_TEXT_CHARS - totalChars) ++ truncationMarker
      else text
    ({ name := f.name, textContent := some truncated }, totalChars + truncated.length)
  | .error e => ({ name := f.name, extractionError := some e }, totalChars)

/-- One iteration of the `onFileChange` loop body (lines 690-732), after
the size check: classification chain, per-branch budget gate, and the
per-file `catch` that records `extractionError`. -/
def processOneFile (f : FileInput) (totalChars : Nat) : Attachment × Nat :=
  if isImageFile f then
    match f.content with
    | .ok d => ({ name := f.name, dataUrl := some d }, totalChars)
    | .error e => ({ name := f.name, extractionError := some e }, totalChars)
  else if isPdfFile f ∧ totalChars < MAX_TOTAL_TEXT_CHARS then extractWithBudget f totalChars
  else if isDocxFile f ∧ totalChars < MAX_TOTAL_TEXT_CHARS then extractWithBudget f totalChars
  else if isXlsxFile f ∧ totalChars < MAX_TOTAL_TEXT_CHARS then extractWithBudget f totalChars
  else if isLikelyTextFile f ∧ totalChars < MAX_TOTAL_TEXT_CHARS then extractWithBudget f totalChars
  else ({ name := f.name }, totalChars)

/-- The `onFileChange` loop (lines 689-733): `count` is `list.length`
(attachments accepted so far), oversized files are skipped (`continue`). -/
def onFileChangeGo (files : List FileInput) (count totalChars : Nat) : List Attachment :=
  match files with
  | [] => []
  | f :: rest =>
    if count < MAX_FILES_PER_MESSAGE then
      let sizeLimit := if isImageFile f then MAX_IMAGE_SIZE_BYTES else MAX_FILE_SIZE_BYTES
      if sizeLimit < f.size then onFileChangeGo rest count totalChars
      else
        (processOneFile f totalChars).1 ::
          onFileChangeGo rest (count + 1) (processOneFile f totalChars).2
    else []

/-- The attachment batch produced by one `onFileChange` call. -/
def onFileChangeList (files : List FileInput) : List Attachment :=
  onFileChangeGo files 0 0

/-- Length of an attachment's extracted text (0 when none). -/
def textLen (a : Attachment) : Nat :=
  match a.textContent with
  | some t => t.length
  | none => 0

/-- Sum of extracted-text lengths across a batch. -/
def sumTextLen (l : List Attachment) : Nat := (l.map textLen).sum

/-! ## Request construction (`buildMessageText`, `buildOpenAIMessages`,
ChatStorageSharePoint.ts:745-826) -/

/-- One content part of a provider message. -/
inductive Part where
  | text (s : String)
  | imageUrl (url : String)
deriving DecidableEq

/-- `content: string | object[]` of a provider message. -/
inductive ApiContent where
  | str (s : String)
  | parts (l : List Part)
deriving DecidableEq

structure ApiMessage where
  role : String
  content : ApiContent
deriving DecidableEq

/-- `buildMessageText` (line 745): the user text, then the extracted file
texts framed by name headers, then the note listing unextracted names. -/
def buildMessageText (userText : String) (fileTexts : List FileTextEntry)
    (otherFileNames : List String) : String :=
  let text1 := userText
  let text2 :=
    if 0 < fileTexts.length then
      let fileBlocks :=
        String.intercalate "\n\n" (fileTexts.map fun f => "--- " ++ f.name ++ " ---\n" ++ f.text)
      if text1 ≠ "" then text1 ++ "\n\nAttached files:\n\n" ++ fileBlocks
      else "Attached files:\n\n" ++ fileBlocks
    else text1
  let text3 :=
    if 0 < otherFileNames.length then
      (if text2 ≠ "" then text2 ++ "\n\n" else "")
        ++ "(Also attached; content not extracted: "
        ++ String.intercalate ", " otherFileNames ++ ")"
    else text2
  if text3 ≠ "" then text3 else "(No content)"

/-- The `list.map((m) => ...)` conversion of one stored message
(lines 770-778). -/
def toApiMessage (m : ChatMessage) : ApiMessage :=
  match m.role with
  | .assistant => ⟨"assistant", .str m.content⟩
  | .user =>
    let fullText := buildMessageText m.content (m.fileTexts.getD []) (m.otherFileNames.getD [])
    let parts := Part.text fullText :: (m.imageDataUrls.getD []).map Part.imageUrl
    ⟨"user", if parts.length = 1 then .str fullText else .parts parts⟩

/-- The pushed new user turn (lines 780-788). -/
def newUserApiMessage (userText : String) (imageDataUrls : List String)
    (fileTexts : List FileTextEntry) (otherFileNames : List String) : ApiMessage :=
  let newText := buildMessageText userText fileTexts otherFileNames
  let newParts := Part.text newText :: imageDataUrls.map Part.imageUrl
  ⟨"user", if newParts.length = 1 then .str newText else .parts newParts⟩

/-- The conversation part of the request (lines 769-788): history (minus
its last element for regenerate) plus, except for regenerate, the new
user turn. -/
def baseApiMessages (messages : List ChatMessage) (userText : String)
    (imageDataUrls : List String) (fileTexts : List FileTextEntry)
    (otherFileNames : List String) (forRegenerate : Bool) : List ApiMessage :=
  let list := if forRegenerate then messages.dropLast else messages
  let apiMessages := list.map toApiMessage
  if forRegenerate then apiMessages
  else apiMessages ++ [newUserApiMessage userText imageDataUrls fileTexts otherFileNames]

/-- The text the detection code reads from a message (string content, or
the first `text` part of array content; `undefined` otherwise). -/
def msgText (m : ApiMessage) : Option String :=
  match m.content with
  | .str s => some s
  | .parts l =>
    l.findSome? fun p => match p with
      | .text s => some s
      | .imageUrl _ => none

/-- `hasAttachedFileContent` detection (lines 790-794). -/
def hasAttachedFileContent (l : List ApiMessage) : Bool :=
  l.any fun m =>
    m.role = "user" &&
      match msgText m with
      | some t => jsIncludes t "Attached files:"
      | none => false

/-- The second `some` of line 801 (the unextracted-names marker). -/
def hasUnsupportedMarker (l : List ApiMessage) : Bool :=
  l.any fun m =>
    m.role = "user" &&
      match msgText m with
      | some t => jsIncludes t "content not extracted"
      | none => false

/-- `hasImages` detection (lines 812-816). -/
def hasImagesIn (l : List ApiMessage) : Bool :=
  l.any fun m =>
    m.role = "user" &&
      match m.content with
      | .parts ps => ps.any fun p => match p with
          | .imageUrl _ => true
          | .text _ => false
      | .str _ => false

/-- The system message unshifted for extracted file content (line 796). -/
def fileContentSystemMessage : ApiMessage :=
  ⟨"system", .str "The user can attach files. When they do, the full text content of supported files (PDF, Word, Excel, text) is included in the user message under \"Attached files:\" with the format \"--- filename ---\" followed by the content. Use that content to answer. Do not say you cannot view or access the files when this content is present."⟩

/-- The system message unshifted for unextracted attachments (line 807). -/
def unsupportedSystemMessage : ApiMessage :=
  ⟨"system", .str "The user attached files but text extraction failed (e.g. PDF in browser), so you only see \"(Also attached; content not extracted: ...)\". Do not say you cannot access attachments. Instead, ask the user to paste the relevant text into the chat or to try a different format (e.g. .txt), or suggest using a backend that can extract PDFs."⟩

/-- The system message unshifted for images (line 818). -/
def imagesSystemMessage : ApiMessage :=
  ⟨"system", .str "The user can attach images. When they do, the images are included in the user message and you can see them. Describe, analyze, or answer questions about what you see in the images. Do not say you are unable to view or recognize images when they have been shared."⟩

/-- `buildOpenAIMessages` (line 761), including the successive `unshift`
calls and the fact that the second detection is gated behind
`!hasAttachedFileContent` and runs over the already-mutated list. -/
def buildOpenAIMessages (messages : List ChatMessage) (userText : String)
    (imageDataUrls : List String) (fileTexts : List FileTextEntry)
    (otherFileNames : List String) (forRegenerate : Bool) : List ApiMessage :=
  let base := baseApiMessages messages userText imageDataUrls fileTexts otherFileNames forRegenerate
  let hasFC := hasAttachedFileContent base
  let m1 := if hasFC then fileContentSystemMessage :: base else base
  let hasUA := !hasFC && hasUnsupportedMarker m1
  let m2 := if hasUA then unsupportedSystemMessage :: m1 else m1
  let hasIm := hasImagesIn m2
  if hasIm then imagesSystemMessage :: m2 else m2

/-- Count of occurrences of a given provider message in a request. -/
def countMsg (l : List ApiMessage) (x : ApiMessage) : Nat :=
  (l.filter fun y => decide (y = x)).length

/-- The prefix of injected system messages `buildOpenAIMessages` produces
for a given combination of detections (innermost `unshift` first). -/
def sysPrefixFor (hasFC hasUA hasIm : Bool) : List ApiMessage :=
  (if hasIm then [imagesSystemMessage] else [])
    ++ (if hasUA then [unsupportedSystemMessage] else [])
    ++ (if hasFC then [fileContentSystemMessage] else [])

/-! ## `sendMessage` (ChatStorageSharePoint.ts:828-989): the synchronous
front of the handler, up to dispatching the request.

The model takes the closure values (`input`, `attachments`, `messages`,
`loading`, `apiKey`) plus the two generated ids and the current time, and
returns `none` when the handler returns early (missing key, no content,
already loading), otherwise the built request, the message list after the
user turn/slice and the assistant placeholder have been applied, and the
stored user message if one was appended. The chat-creation block
(lines 873-898) touches chat records, not the message list or request,
and is modelled with the persistence adapters below. -/

structure SendOutcome where
  request : List ApiMessage
  newMessages : List ChatMessage
  userMessage : Option ChatMessage
deriving DecidableEq

/-- The `assistantPlaceholder` of lines 902-907. -/
def assistantPlaceholder (plId : String) (now : Int) : ChatMessage :=
  ⟨plId, .assistant, "", now, none, none, none⟩

def sendMessageModel (input : String) (attachments : List Attachment)
    (messages : List ChatMessage) (loading : Bool) (apiKey : String) (regenerate : Bool)
    (userMsgId plId : String) (now : Int) : Option SendOutcome :=
  if jsTrim apiKey = "" then none
  else
    let userText0 := jsTrim input
    let imgs0 := attachments.filterMap (·.dataUrl)
    let fts0 := attachments.filterMap fun a => a.textContent.map fun t => FileTextEntry.mk a.name t
    let ofns0 := (attachments.filter fun a => a.dataUrl = none ∧ a.textContent = none).map (·.name)
    let r :=
      if regenerate ∧ 2 ≤ messages.length then
        match messages.reverse.find? (fun m => decide (m.role = Role.user)) with
        | some lastUser =>
          (lastUser.content, lastUser.imageDataUrls.getD [], lastUser.fileTexts.getD [],
           lastUser.otherFileNames.getD [], messages.dropLast.dropLast)
        | none => (userText0, imgs0, fts0, ofns0, messages)
      else (userText0, imgs0, fts0, ofns0, messages)
    let userText := r.1
    let imgs := r.2.1
    let fts := r.2.2.1
    let ofns := r.2.2.2.1
    let msgsAfter := r.2.2.2.2
    let hasContent := userText ≠ "" ∨ imgs ≠ [] ∨ fts ≠ [] ∨ ofns ≠ []
    if ¬hasContent ∧ ¬regenerate then none
    else if loading then none
    else
      let userMessage : Option ChatMessage :=
        if regenerate then none
        else some
          ⟨userMsgId, .user,
           (if userText ≠ "" then userText
            else if imgs ≠ [] then "(Sent images)" else "(Sent files)"),
           now,
           (if imgs ≠ [] then some imgs else none),
           (if fts ≠ [] then some fts else none),
           (if ofns ≠ [] then some ofns else none)⟩
      let msgsWithUser :=
        match userMessage with
        | some um => msgsAfter ++ [um]
        | none => msgsAfter
      let newMessages := msgsWithUser ++ [assistantPlaceholder plId now]
      let request := buildOpenAIMessages messages userText imgs fts ofns regenerate
      some ⟨request, newMessages, userMessage⟩

/-! ## Remote persistence adapter (`ChatStorageSharePoint.ts`, lines 1-140)

The per-user slice of the document library is a list of (file name, parsed
chat) pairs; the REST endpoints are abstracted into an environment that
says, per endpoint, whether the request succeeds. File contents only ever
carry chat JSON through these functions' success paths, so a file's
content is modelled as the `IStoredChat` value it parses to. -/

structure FileItem where
  Name : String
  ServerRelativeUrl : String
deriving DecidableEq

/-- The current user's files in the library (authorship filter applied):
file name paired with the stored chat the file's JSON parses to. The
server-relative URL of a file is identified with its name. -/
abbrev Library := List (String × StoredChat)

structure SPEnv where
  /-- Outcome of `GET _api/web/currentuser`. -/
  userResp : Except Unit Nat
  /-- Outcome of `GET .../rootFolder`. -/
  folderResp : Except Unit String
  /-- Does `GET .../items?$filter=AuthorId...` succeed? -/
  itemsOk : Bool
  /-- Does `GET GetFileByServerRelativeUrl(url)/$value` succeed? -/
  contentOk : String → Bool
  /-- Does `POST .../Files/add(...,overwrite=true)` succeed? -/
  addOk : Bool
  /-- Does `DELETE GetFileByServerRelativeUrl(url)` succeed? -/
  deleteOk : Bool

/-- The chat file name: `CHAT_FILE_PREFIX + chatId + FILE_EXT` (line 10). -/
def chatFileName (chatId : String) : String := "chat2etc-chat-" ++ chatId ++ ".json"

/-- `getCurrentUserId` (line 21), with the module-level `cachedUserId`
passed explicitly. -/
def getCurrentUserId (env : SPEnv) (cached : Option Nat) : Except String Nat :=
  match cached with
  | some id => .ok id
  | none =>
    match env.userResp with
    | .ok id => .ok id
    | .error _ => .error "Failed to get current user"

/-- `getFolderServerRelativeUrl` (line 31). -/
def getFolderServerRelativeUrl (env : SPEnv) : Except String String :=
  match env.folderResp with
  | .ok u => .ok u
  | .error _ => .error "Library not found or no access"

/-- `getMyFileItems` (line 43): requires the identity lookup, then
degrades to `[]` when the items request itself fails. -/
def getMyFileItems (env : SPEnv) (lib : Library) (cached : Option Nat) :
    Except String (List FileItem) := do
  let _userId ← getCurrentUserId env cached
  if env.itemsOk then .ok (lib.map fun f => ⟨f.1, f.1⟩) else .ok []

/-- `getFileContent` (line 56) composed with the `JSON.parse` of its
caller: `none` stands for the empty string returned on a failed request
(and for unparseable content); the function itself never throws. -/
def getFileContent (env : SPEnv) (lib : Library) (url : String) :
    Except String (Option StoredChat) :=
  if env.contentOk url then .ok ((lib.find? fun f => decide (f.1 = url)).map (·.2))
  else .ok none

/-- `saveChatToLibrary` (line 113): folder lookup, then `Files/add` with
`overwrite=true` (an upsert keyed by the file name); a failed add throws. -/
def saveChatToLibrary (env : SPEnv) (lib : Library) (chat : StoredChat) :
    Except String Library := do
  let _folderUrl ← getFolderServerRelativeUrl env
  let fileName := chatFileName chat.id
  if env.addOk then .ok ((lib.filter fun f => decide (f.1 ≠ fileName)) ++ [(fileName, chat)])
  else .error "Failed to save chat"

/-- `saveProjectsToLibrary` (line 80). -/
def saveProjectsToLibrary (env : SPEnv) (cached : Option Nat) (projects : List Project) :
    Except String (List Project) := do
  let userId ← getCurrentUserId env cached
  let _folderUrl ← getFolderServerRelativeUrl env
  let _fileName := "chat2etc-projects-" ++ toString userId ++ ".json"
  if env.addOk then .ok projects else .error "Failed to save projects"

/-- `deleteChatFromLibrary` (line 129): looks the file up among the
user's items; a missing file returns silently (`if (!file) return;`),
a failed DELETE throws. -/
def deleteChatFromLibrary (env : SPEnv) (lib : Library) (cached : Option Nat)
    (chatId : String) : Except String Library := do
  let files ← getMyFileItems env lib cached
  let fileName := chatFileName chatId
  match files.find? fun f => decide (f.Name = fileName) with
  | none => .ok lib
  | some f =>
    if env.deleteOk then .ok (lib.filter fun g => decide (g.1 ≠ f.ServerRelativeUrl))
    else .error "Failed to delete chat"

/-- The body of the `getChatsFromLibrary` read loop (lines 100-109): read
each file, skip empty/unparseable content, keep chats passing the
`chat.id && chat.projectId && Array.isArray(chat.messages)` check
(string truthiness = nonemptiness; the array check always holds under
the declared types). -/
def collectChats (env : SPEnv) (lib : Library) : List FileItem → List StoredChat
  | [] => []
  | f :: rest =>
    match (if env.contentOk f.ServerRelativeUrl
           then (lib.find? fun g => decide (g.1 = f.ServerRelativeUrl)).map (·.2)
           else none) with
    | none => collectChats env lib rest
    | some chat =>
      if chat.id ≠ "" ∧ chat.projectId ≠ "" then chat :: collectChats env lib rest
      else collectChats env lib rest

/-- Insertion step for the descending `updatedAt` sort of line 110. -/
def insertByUpdated (c : DateCodec) (x : StoredChat) : List StoredChat → List StoredChat
  | [] => [x]
  | y :: ys =>
    if c.parse y.updatedAt ≤ c.parse x.updatedAt then x :: y :: ys
    else y :: insertByUpdated c x ys

/-- `chats.sort((a, b) => new Date(b.updatedAt) - new Date(a.updatedAt))`:
a sort by descending parsed `updatedAt` (the claims below depend on the
result's membership, which any sort realisation shares). -/
def sortByUpdatedDesc (c : DateCodec) : List StoredChat → List StoredChat
  | [] => []
  | x :: xs => insertByUpdated c x (sortByUpdatedDesc c xs)

/-- `getChatsFromLibrary` (line 96). -/
def getChatsFromLibrary (c : DateCodec) (env : SPEnv) (lib : Library)
    (cached : Option Nat) : Except String (List StoredChat) := do
  let files ← getMyFileItems env lib cached
  let chatFiles := files.filter fun f =>
    jsStartsWith f.Name "chat2etc-chat-" && jsEndsWith f.Name ".json"
  .ok (sortByUpdatedDesc c (collectChats env lib chatFiles))

/-! ## Local persistence (`ChatStorage.ts` + `persistCurrentChat`,
ChatStorageSharePoint.ts:570-585)

`localStorage` under the chats key holds a serialized chat collection;
since `JSON.parse(JSON.stringify(v))` is the identity on these records,
the store is modelled by the collection itself. -/

/-- `all[idx] = updated` replaces the first chat with the given id
(`findIndex` semantics). -/
def replaceFirstChat : List StoredChat → String → StoredChat → List StoredChat
  | [], _, _ => []
  | ch :: rest, cid, upd =>
    if ch.id = cid then upd :: rest else ch :: replaceFirstChat rest cid upd

/-- The local branch of `persistCurrentChat` (lines 570-585): build the
updated `IStoredChat` (keeping `createdAt` and, unless given, the title of
an existing record) and upsert it into the collection. -/
def persistCurrentChatLocal (c : DateCodec) (store : List StoredChat) (cid pid : String)
    (msgs : List ChatMessage) (title : Option String) (now : String) : List StoredChat :=
  let existing := store.find? fun ch => decide (ch.id = cid)
  let titleToUse :=
    match title with
    | some t => t
    | none => match existing with
      | some e => e.title
      | none => "New chat"
  let updated : StoredChat :=
    { id := cid
      projectId := pid
      title := titleToUse
      messages := msgs.map (messageToStored c)
      createdAt := match existing with
        | some e => e.createdAt
        | none => now
      updatedAt := now }
  if store.any fun ch => decide (ch.id = cid) then replaceFirstChat store cid updated
  else store ++ [updated]

/-! ## Project deletion (`handleDeleteProject`, remote branch,
ChatStorageSharePoint.ts:1060-1086) -/

/-- The component state the handler reads and writes. `chats` is the
sidebar list — the chats of the currently selected project only (effect
at line 515); `allChats` spans all projects. -/
structure ComponentState where
  projects : List Project
  allChats : List StoredChat
  chats : List StoredChat
  currentProjectId : Option String
  currentChatId : Option String
  messages : List ChatMessage
deriving DecidableEq

/-- `handleDeleteProject`, SharePoint branch (lines 1064-1086), success
path of the promise chain: delete the files of `chats.filter(projectId
=== p.id)`, save the filtered project list, filter the in-memory
collections, and move the selection if the deleted project was current. -/
def handleDeleteProjectSP (env : SPEnv) (cached : Option Nat) (s : ComponentState)
    (lib : Library) (p : Project) :
    Except String (ComponentState × Library × List Project) := do
  let projectChats := s.chats.filter fun ch => decide (ch.projectId = p.id)
  let lib' ← projectChats.foldlM (fun l ch => deleteChatFromLibrary env l cached ch.id) lib
  let projectsAfter ← saveProjectsToLibrary env cached (s.projects.filter fun x => decide (x.id ≠ p.id))
  let s1 := { s with
    projects := s.projects.filter fun x => decide (x.id ≠ p.id)
    allChats := s.allChats.filter fun ch => decide (ch.projectId ≠ p.id)
    chats := s.chats.filter fun ch => decide (ch.projectId ≠ p.id) }
  let s2 :=
    if s.currentProjectId = some p.id then
      let remaining := s.projects.filter fun x => decide (x.id ≠ p.id)
      let nextAll := s.allChats.filter fun ch => decide (ch.projectId ≠ p.id)
      match remaining with
      | r :: _ =>
        { s1 with
          currentProjectId := some r.id
          currentChatId := (nextAll.find? fun ch => decide (ch.projectId = r.id)).map (·.id) }
      | [] => { s1 with currentProjectId := none, currentChatId := none, messages := [] }
    else s1
  .ok (s2, lib', projectsAfter)

/-! ## Streaming lifecycle control (`newChat`, `handleSelectChat`,
`sendMessage`; ChatStorageSharePoint.ts:641-675, 1027-1032, 828-989)

The in-flight network operation (`abortRef.current`) is an operation id;
`aborted` records the ids whose controllers have been aborted. A chunk of
an aborted operation is never delivered: `fetch` rejects the pending read
with `AbortError` (handled at line 975), which is what `applyChunkEngine`
reflects by leaving the state unchanged for aborted ids. -/

structure EngineState where
  messages : List ChatMessage
  loading : Bool
  input : String
  attachments : List Attachment
  currentChatId : Option String
  curOp : Option Nat
  aborted : List Nat
  nextOp : Nat
deriving DecidableEq

/-- `abortRef.current?.abort()`. -/
def abortCurrent (s : EngineState) : EngineState :=
  match s.curOp with
  | some o => { s with aborted := o :: s.aborted }
  | none => s

/-- `newChat` (line 641): abort, clear input/attachments/loading, select
the fresh chat, clear the message pane (the persisted chat record it
creates is covered by the adapter model). -/
def newChatEngine (s : EngineState) (newChatId : String) : EngineState :=
  let s := abortCurrent s
  { s with
    input := ""
    attachments := []
    loading := false
    currentChatId := some newChatId
    messages := [] }

/-- `handleSelectChat` (line 1027): selects the chat (menu bookkeeping is
pure UI); it neither aborts nor touches `loading`. -/
def selectChatEngine (s : EngineState) (chatId : String) : EngineState :=
  { s with currentChatId := some chatId }

/-- A non-regenerate send (`sendMessage()`): when the model returns
`none` (missing key, nothing to send, or `loading` — line 858) the state
is unchanged; otherwise the messages are replaced and a fresh abort
controller becomes current (line 910). -/
def sendStartEngine (s : EngineState) (key userMsgId plId : String) (now : Int) :
    EngineState :=
  match sendMessageModel s.input s.attachments s.messages s.loading key false
      userMsgId plId now with
  | none => s
  | some out =>
    { s with
      input := ""
      attachments := []
      messages := out.newMessages
      loading := true
      curOp := some s.nextOp
      nextOp := s.nextOp + 1 }

/-- Arrival of a streamed chunk for operation `op` carrying the updated
accumulator (lines 957-961): applied by placeholder id unless the
operation was aborted, in which case the read has already rejected and
nothing is applied. -/
def applyChunkEngine (s : EngineState) (op : Nat) (plId : String) (newContent : String) :
    EngineState :=
  if op ∈ s.aborted then s
  else { s with messages := applyContentToMessages s.messages plId newContent }

/-! ## Concrete instances used by the witnesses and counterexamples -/

/-- A concrete `DateCodec`: one invertible time encoding (existence is
all the round-trip statements need of the runtime's `Date`). -/
def unaryCodec : DateCodec where
  toISO t := ⟨List.replicate t.toNat '+' ++ List.replicate (-t).toNat '-'⟩
  parse s := (s.data.count '+' : Int) - (s.data.count '-' : Int)
  parse_toISO t := by
    simp [List.count_append, List.count_replicate]

/-- A plain-text file one character over the whole budget. -/
def overBudgetText : String := ⟨List.replicate 80001 'a'⟩

def overBudgetFile : FileInput :=
  { name := "big.txt", type := "text/plain", size := 100, content := .ok overBudgetText }

/-- A small plain-text file, for exercising the truncation equation. -/
def smallTextFile : FileInput :=
  { name := "note.txt", type := "text/plain", size := 10, content := .ok "ab" }

/-- An environment in which every REST request succeeds. -/
def envAllOk : SPEnv :=
  { userResp := .ok 7
    folderResp := .ok "/sites/demo/ChatLib"
    itemsOk := true
    contentOk := fun _ => true
    addOk := true
    deleteOk := true }

/-- An environment whose DELETE and add requests fail. -/
def envWriteFail : SPEnv :=
  { userResp := .ok 7
    folderResp := .ok "/sites/demo/ChatLib"
    itemsOk := true
    contentOk := fun _ => true
    addOk := false
    deleteOk := false }

/-- An environment whose items and content requests fail. -/
def envReadFail : SPEnv :=
  { userResp := .ok 7
    folderResp := .ok "/sites/demo/ChatLib"
    itemsOk := false
    contentOk := fun _ => false
    addOk := true
    deleteOk := true }

def demoStoredMessage : StoredMessage :=
  { id := "m1", role := .user, content := "hello", timestamp := "++"
    imageDataUrls := none, fileTexts := none, otherFileNames := none }

/-- Two projects; `p1` is selected, the chat `c2demo` belongs to `p2`. -/
def p1demo : Project := { id := "p1", name := "Main", createdAt := "+" }

def p2demo : Project := { id := "p2", name := "Other", createdAt := "++" }

def c2demo : StoredChat :=
  { id := "c2", projectId := "p2", title := "T", messages := [demoStoredMessage]
    createdAt := "+", updatedAt := "++" }

def c3lib : Library := [(chatFileName "c2", c2demo)]

def c3state : ComponentState :=
  { projects := [p1demo, p2demo]
    allChats := [c2demo]
    chats := []
    currentProjectId := some "p1"
    currentChatId := none
    messages := [] }

/-- A chat with an empty id (every field of `IStoredChat` is a plain
string; nothing in the type forbids it). -/
def emptyIdChat : StoredChat :=
  { id := "", projectId := "p2", title := "T", messages := [demoStoredMessage]
    createdAt := "+", updatedAt := "++" }

/-- A valid chat for the round-trip witness. -/
def demoChat : StoredChat :=
  { id := "c9", projectId := "p1", title := "T", messages := [demoStoredMessage]
    createdAt := "+", updatedAt := "++" }

def demoChatMessage : ChatMessage :=
  { id := "m2", role := .user, content := "hi", timestamp := 3
    imageDataUrls := some ["data:image/png;base64,AA"], fileTexts := none
    otherFileNames := none }

def demoAssistantMessage : ChatMessage :=
  { id := "m3", role := .assistant, content := "hello there", timestamp := 4
    imageDataUrls := none, fileTexts := none, otherFileNames := none }

/-- An engine state mid-stream: operation 0 is in flight, 3 was aborted
earlier. -/
def streamingState : EngineState :=
  { messages := [demoChatMessage, assistantPlaceholder "pl" 5]
    loading := true
    input := ""
    attachments := []
    currentChatId := some "c1"
    curOp := some 0
    aborted := [3]
    nextOp := 1 }

/-- An attachment carrying only extracted text. -/
def textOnlyAttachment : Attachment :=
  { name := "doc.txt", textContent := some "DOC" }

/-! # Theorems -/

/-! ## C7: model-selection heuristic -/

/-- C7: the pure model-suggestion function returns `simple` for
("What is the capital of France?", false), `complex` for
("Write a function that implements quicksort and explain the algorithm
step by step", false), and `complex` for every text once
`hasAttachments` is true. -/
theorem c7_model_suggestion :
    suggestModelFromContent "What is the capital of France?" false = .simple
    ∧ suggestModelFromContent
        "Write a function that implements quicksort and explain the algorithm step by step"
        false = .complex
    ∧ ∀ text, suggestModelFromContent text true = .complex := by
  refine ⟨by decide, by decide, fun text => ?_⟩
  unfold suggestModelFromContent
  by_cases h : 400 < (jsToLower (jsTrim text)).length <;> simp [h]

/-! ## C9: whitespace-only streamed reply becomes "No response." -/

/-- C9: when the stream ends normally and the accumulated content trims
to empty, the assistant message identified by the placeholder id carries
the literal "No response.". -/
theorem c9_no_response (deltas : List (Option String)) (msgs : List ChatMessage)
    (plId : String) (m : ChatMessage)
    (hws : jsTrim (accumulateDeltas deltas) = "")
    (hm : m ∈ applyContentToMessages msgs plId (finalizeStreamContent (accumulateDeltas deltas)))
    (hid : m.id = plId) : m.content = "No response." := by
  have hfin : finalizeStreamContent (accumulateDeltas deltas) = "No response." := by
    unfold finalizeStreamContent
    rw [hws]
    rfl
  rw [hfin] at hm
  unfold applyContentToMessages at hm
  rcases List.mem_map.mp hm with ⟨m₀, _, hm₀⟩
  by_cases h : m₀.id = plId
  · rw [if_pos h] at hm₀
    rw [← hm₀]
  · rw [if_neg h] at hm₀
    rw [← hm₀] at hid
    exact absurd hid h

/-- C9 witness: a stream of one space delta plus empty/absent deltas
leaves the placeholder with "No response.". -/
theorem c9_no_response_witness :
    ({ id := "pl", role := .assistant, content := "No response.", timestamp := 5,
       imageDataUrls := none, fileTexts := none, otherFileNames := none } : ChatMessage).content
      = "No response." :=
  c9_no_response [some " ", none, some ""] [assistantPlaceholder "pl" 5] "pl" _
    (by decide) (by decide) (by decide)

/-! ## C10: empty input with attachments -/

/-- Each attachment lands in exactly one of the three derived lists, so a
nonempty attachment list yields content to send. -/
theorem attachments_give_content (atts : List Attachment) (h : atts ≠ []) :
    atts.filterMap (·.dataUrl) ≠ []
    ∨ (atts.filterMap fun a => a.textContent.map fun t => FileTextEntry.mk a.name t) ≠ []
    ∨ ((atts.filter fun a => a.dataUrl = none ∧ a.textContent = none).map (·.name)) ≠ [] := by
  match atts, h with
  | a :: rest, _ =>
    cases hd : a.dataUrl with
    | some d =>
      left
      simp [List.filterMap_cons, hd]
    | none =>
      cases ht : a.textContent with
      | some t =>
        right; left
        simp [List.filterMap_cons, hd, ht]
      | none =>
        right; right
        simp [List.filter_cons, hd, ht]

/-- C10: a non-regenerate send with empty trimmed input but at least one
attachment still goes out, and the stored user message's content is
"(Sent images)" when an image data URL is attached, "(Sent files)"
otherwise. -/
theorem c10_placeholder_content (inputStr : String) (atts : List Attachment)
    (ms : List ChatMessage) (key userMsgId plId : String) (now : Int)
    (hinput : jsTrim inputStr = "") (hatts : atts ≠ []) (hkey : jsTrim key ≠ "") :
    ∃ out um,
      sendMessageModel inputStr atts ms false key false userMsgId plId now = some out
      ∧ out.userMessage = some um
      ∧ um.content = (if atts.filterMap (·.dataUrl) ≠ [] then "(Sent images)" else "(Sent files)")
      ∧ out.newMessages = ms ++ [um, assistantPlaceholder plId now] := by
  have hcontent := attachments_give_content atts hatts
  unfold sendMessageModel
  rw [if_neg hkey]
  simp only [hinput]
  have hreg : ¬ ((false : Bool) = true ∧ 2 ≤ ms.length) := by simp
  rw [if_neg hreg]
  have hhc : ¬ (¬ ((("" : String) ≠ "")
      ∨ atts.filterMap (·.dataUrl) ≠ []
      ∨ (atts.filterMap fun a => a.textContent.map fun t => FileTextEntry.mk a.name t) ≠ []
      ∨ ((atts.filter fun a => a.dataUrl = none ∧ a.textContent = none).map (·.name)) ≠ [])
      ∧ ¬ ((false : Bool) = true)) := by
    intro hc
    exact hc.1 (Or.inr hcontent)
  rw [if_neg hhc]
  rw [if_neg (by simp : ¬ ((false : Bool) = true))]
  simp only [if_neg (by simp : ¬ ((false : Bool) = true))]
  refine ⟨_, _, rfl, rfl, ?_, ?_⟩
  · simp
  · simp

/-- C10 witness: one text-only attachment and whitespace input. -/
theorem c10_placeholder_content_witness :
    ∃ out um,
      sendMessageModel " " [textOnlyAttachment] [] false "key" false "u1" "pl" 9 = some out
      ∧ out.userMessage = some um
      ∧ um.content
          = (if ([textOnlyAttachment].filterMap (·.dataUrl)) ≠ []
             then "(Sent images)" else "(Sent files)")
      ∧ out.newMessages = [] ++ [um, assistantPlaceholder "pl" 9] :=
  c10_placeholder_content " " [textOnlyAttachment] [] "key" "u1" "pl" 9
    (by decide) (by decide) (by decide)

/-! ## C5: cancellation of in-flight streams -/

/-- A send never goes out while `loading` is set (line 858 returns before
any controller or request is created). -/
theorem sendMessageModel_loading (input : String) (attachments : List Attachment)
    (messages : List ChatMessage) (apiKey : String) (regenerate : Bool)
    (userMsgId plId : String) (now : Int) :
    sendMessageModel input attachments messages true apiKey regenerate userMsgId plId now
      = none := by
  simp [sendMessageModel]

/-- C5 counterexample: with a stream active (operation 0 in flight),
switching to another chat aborts nothing — `handleSelectChat` only moves
the selection. The claim that a session switch away from the current chat
first aborts the in-flight operation is false here. -/
theorem c5_counterexample :
    streamingState.loading = true ∧ streamingState.curOp = some 0
    ∧ ¬ 0 ∈ (selectChatEngine streamingState "c2").aborted := by decide

/-- C5 (amended): creating a new chat while a stream is active aborts the
in-flight operation; a new send while a stream is active is refused and
leaves the engine unchanged (rather than cancelling and resending);
switching chats does not cancel; a chunk of an aborted operation is never
applied, and abortion is permanent across the engine's operations. -/
theorem c5_cancellation (s : EngineState) (newChatId chatId key userMsgId plId : String)
    (now : Int) (op : Nat) (content : String) :
    (s.loading = true → ∀ o, s.curOp = some o → o ∈ (newChatEngine s newChatId).aborted)
    ∧ (s.loading = true → sendStartEngine s key userMsgId plId now = s)
    ∧ (op ∈ s.aborted → applyChunkEngine s op plId content = s)
    ∧ (op ∈ s.aborted →
        op ∈ (newChatEngine s newChatId).aborted
        ∧ op ∈ (selectChatEngine s chatId).aborted
        ∧ op ∈ (sendStartEngine s key userMsgId plId now).aborted) := by
  refine ⟨?_, ?_, ?_, ?_⟩
  · intro _ o ho
    unfold newChatEngine abortCurrent
    rw [ho]
    exact List.mem_cons_self o s.aborted
  · intro hl
    unfold sendStartEngine
    rw [hl, sendMessageModel_loading]
  · intro ha
    unfold applyChunkEngine
    rw [if_pos ha]
  · intro ha
    refine ⟨?_, ha, ?_⟩
    · unfold newChatEngine abortCurrent
      cases s.curOp with
      | some o => exact List.mem_cons_of_mem o ha
      | none => exact ha
    · unfold sendStartEngine
      cases sendMessageModel s.input s.attachments s.messages s.loading key false
          userMsgId plId now with
      | none => exact ha
      | some out => exact ha

/-- C5 witness: the amended behaviour at the concrete mid-stream state. -/
theorem c5_cancellation_witness :
    0 ∈ (newChatEngine streamingState "newC").aborted
    ∧ sendStartEngine streamingState "key" "u1" "p1" 9 = streamingState
    ∧ applyChunkEngine streamingState 3 "pl" "x" = streamingState
    ∧ 3 ∈ (selectChatEngine streamingState "c2").aborted := by
  have h := c5_cancellation streamingState "newC" "c2" "key" "u1" "p1" 9 3 "x"
  exact ⟨h.1 (by decide) 0 (by decide), h.2.1 (by decide), h.2.2.1 (by decide),
    (h.2.2.2 (by decide)).2.1⟩

/-! ## C3: project deletion cascade (remote branch) -/

/-- C3 failing-input evaluation: with project `p1` selected and the chat
`c2demo` of project `p2` present both in memory and as a library file,
deleting `p2` leaves the library unchanged — `projectChats` is computed
from `chats`, the sidebar list of the *selected* project, which contains
no chat of `p2` — while the in-memory collections are filtered. The
persisted chat of the deleted project survives, contradicting the cascade
the code's own confirm prompt ("Delete project ... and all its chats?")
promises. -/
theorem c3_delete_project_eval :
    handleDeleteProjectSP envAllOk none c3state c3lib p2demo
      = Except.ok
          ({ projects := [p1demo]
             allChats := []
             chats := []
             currentProjectId := some "p1"
             currentChatId := none
             messages := [] }, c3lib, [p1demo])
    ∧ (chatFileName "c2", c2demo) ∈ c3lib
    ∧ c2demo.projectId = p2demo.id := by decide

/-! ## C6: remote error surfacing -/

/-- C6 counterexample: deleting a chat whose file is absent returns
silently (`if (!file) return;`) instead of raising — here against an
environment where every request succeeds and an empty library, so the
not-found delete is a no-op `ok`, not an error. -/
theorem c6_counterexample :
    deleteChatFromLibrary envAllOk [] (some 1) "missing" = Except.ok []
    ∧ getMyFileItems envAllOk [] (some 1) = Except.ok [] := by decide

/-- C6 (amended): failed save requests raise, a failed DELETE on a found
file raises, but a not-found delete target returns silently; the item
listing and the file read degrade to an empty result when their own
request fails (the identity lookup is assumed resolved). -/
theorem c6_remote_errors :
    (∀ (env : SPEnv) (lib : Library) (chat : StoredChat) (e : Unit),
      env.folderResp = .error e → ∃ msg, saveChatToLibrary env lib chat = .error msg)
    ∧ (∀ (env : SPEnv) (lib : Library) (chat : StoredChat) (u : String),
        env.folderResp = .ok u → env.addOk = false →
        ∃ msg, saveChatToLibrary env lib chat = .error msg)
    ∧ (∀ (env : SPEnv) (n : Nat) (projects : List Project) (u : String),
        env.folderResp = .ok u → env.addOk = false →
        ∃ msg, saveProjectsToLibrary env (some n) projects = .error msg)
    ∧ (∀ (env : SPEnv) (lib : Library) (cached : Option Nat) (chatId : String)
        (items : List FileItem) (f : FileItem),
        getMyFileItems env lib cached = .ok items →
        items.find? (fun x => decide (x.Name = chatFileName chatId)) = some f →
        env.deleteOk = false →
        ∃ msg, deleteChatFromLibrary env lib cached chatId = .error msg)
    ∧ (∀ (env : SPEnv) (lib : Library) (cached : Option Nat) (chatId : String)
        (items : List FileItem),
        getMyFileItems env lib cached = .ok items →
        items.find? (fun x => decide (x.Name = chatFileName chatId)) = none →
        deleteChatFromLibrary env lib cached chatId = .ok lib)
    ∧ (∀ (env : SPEnv) (lib : Library) (n : Nat),
        env.itemsOk = false → getMyFileItems env lib (some n) = .ok [])
    ∧ (∀ (env : SPEnv) (lib : Library) (url : String),
        env.contentOk url = false → getFileContent env lib url = .ok none) := by
  refine ⟨?_, ?_, ?_, ?_, ?_, ?_, ?_⟩
  · intro env lib chat e he
    refine ⟨"Library not found or no access", ?_⟩
    unfold saveChatToLibrary getFolderServerRelativeUrl
    rw [he]
    rfl
  · intro env lib chat u hu hadd
    refine ⟨"Failed to save chat", ?_⟩
    unfold saveChatToLibrary getFolderServerRelativeUrl
    rw [hu]
    show (if env.addOk = true then _ else _) = _
    rw [hadd]
    rfl
  · intro env n projects u hu hadd
    refine ⟨"Failed to save projects", ?_⟩
    unfold saveProjectsToLibrary getCurrentUserId getFolderServerRelativeUrl
    rw [hu]
    show (if env.addOk = true then _ else _) = _
    rw [hadd]
    rfl
  · intro env lib cached chatId items f hitems hfind hdel
    refine ⟨"Failed to delete chat", ?_⟩
    unfold deleteChatFromLibrary
    rw [hitems]
    show (match items.find? (fun x => decide (x.Name = chatFileName chatId)) with
      | none => _ | some f => _) = _
    rw [hfind]
    show (if env.deleteOk = true then _ else _) = _
    rw [hdel]
    rfl
  · intro env lib cached chatId items hitems hfind
    unfold deleteChatFromLibrary
    rw [hitems]
    show (match items.find? (fun x => decide (x.Name = chatFileName chatId)) with
      | none => _ | some f => _) = _
    rw [hfind]
  · intro env lib n hio
    unfold getMyFileItems getCurrentUserId
    show (if env.itemsOk = true then _ else _) = _
    rw [hio]
    rfl
  · intro env lib url hc
    unfold getFileContent
    rw [if_neg (by simp [hc])]

/-- C6 witness: the amended behaviour at concrete environments. -/
theorem c6_remote_errors_witness :
    (∃ msg, saveChatToLibrary envWriteFail [] demoChat = .error msg)
    ∧ (∃ msg, deleteChatFromLibrary envWriteFail c3lib (some 7) "c2" = .error msg)
    ∧ getMyFileItems envReadFail [] (some 7) = .ok []
    ∧ getFileContent envReadFail c3lib (chatFileName "c2") = .ok none := by
  have h := c6_remote_errors
  refine ⟨h.2.1 envWriteFail [] demoChat "/sites/demo/ChatLib" (by decide) (by decide), ?_, ?_, ?_⟩
  · exact h.2.2.2.1 envWriteFail c3lib (some 7) "c2"
      [⟨chatFileName "c2", chatFileName "c2"⟩] ⟨chatFileName "c2", chatFileName "c2"⟩
      (by decide) (by decide) (by decide)
  · exact h.2.2.2.2.2.1 envReadFail [] 7 (by decide)
  · exact h.2.2.2.2.2.2 envReadFail c3lib (chatFileName "c2") (by decide)

/-! ## C2: system-instruction injection -/

theorem countMsg_append (l₁ l₂ : List ApiMessage) (x : ApiMessage) :
    countMsg (l₁ ++ l₂) x = countMsg l₁ x + countMsg l₂ x := by
  simp [countMsg, List.filter_append]

theorem countMsg_eq_zero (l : List ApiMessage) (x : ApiMessage)
    (h : ∀ m ∈ l, m ≠ x) : countMsg l x = 0 := by
  unfold countMsg
  rw [List.length_eq_zero]
  rw [List.filter_eq_nil_iff]
  intro a ha
  simp [h a ha]

theorem toApiMessage_role (m : ChatMessage) :
    (toApiMessage m).role = "user" ∨ (toApiMessage m).role = "assistant" := by
  cases h : m.role <;> simp [toApiMessage, h]

theorem newUserApiMessage_role (a : String) (b : List String) (c : List FileTextEntry)
    (d : List String) : (newUserApiMessage a b c d).role = "user" := rfl

/-- Every conversation message of a request has role user or assistant. -/
theorem baseApiMessages_roles (messages : List ChatMessage) (userText : String)
    (imgs : List String) (fts : List FileTextEntry) (ofns : List String) (forRegen : Bool) :
    ∀ m ∈ baseApiMessages messages userText imgs fts ofns forRegen,
      m.role = "user" ∨ m.role = "assistant" := by
  intro m hm
  unfold baseApiMessages at hm
  cases forRegen with
  | true =>
    simp only [if_true, List.mem_map] at hm
    rcases hm with ⟨m₀, _, rfl⟩
    exact toApiMessage_role m₀
  | false =>
    simp only [Bool.false_eq_true, if_false, List.mem_append, List.mem_map,
      List.mem_singleton] at hm
    rcases hm with ⟨m₀, _, rfl⟩ | rfl
    · exact toApiMessage_role m₀
    · left
      exact newUserApiMessage_role userText imgs fts ofns

theorem hasUnsupportedMarker_cons (m : ApiMessage) (l : List ApiMessage)
    (h : m.role ≠ "user") : hasUnsupportedMarker (m :: l) = hasUnsupportedMarker l := by
  simp [hasUnsupportedMarker, h]

theorem hasImagesIn_cons (m : ApiMessage) (l : List ApiMessage)
    (h : m.role ≠ "user") : hasImagesIn (m :: l) = hasImagesIn l := by
  simp [hasImagesIn, h]

/-- `buildOpenAIMessages` is the detected system prefix in front of the
conversation; the detections are those of the conversation itself. -/
theorem buildOpenAIMessages_decomp (messages : List ChatMessage) (userText : String)
    (imgs : List String) (fts : List FileTextEntry) (ofns : List String) (forRegen : Bool) :
    buildOpenAIMessages messages userText imgs fts ofns forRegen
      = sysPrefixFor (hasAttachedFileContent
            (baseApiMessages messages userText imgs fts ofns forRegen))
          (!hasAttachedFileContent (baseApiMessages messages userText imgs fts ofns forRegen)
            && hasUnsupportedMarker (baseApiMessages messages userText imgs fts ofns forRegen))
          (hasImagesIn (baseApiMessages messages userText imgs fts ofns forRegen))
        ++ baseApiMessages messages userText imgs fts ofns forRegen := by
  unfold buildOpenAIMessages
  set base := baseApiMessages messages userText imgs fts ofns forRegen with hbase
  cases hFC : hasAttachedFileContent base with
  | true =>
    have h1 : hasImagesIn (fileContentSystemMessage :: base) = hasImagesIn base :=
      hasImagesIn_cons _ _ (by decide)
    cases hIm : hasImagesIn base <;>
      simp [sysPrefixFor, hFC, h1, hIm]
  | false =>
    cases hUA : hasUnsupportedMarker base with
    | true =>
      have h1 : hasImagesIn (unsupportedSystemMessage :: base) = hasImagesIn base :=
        hasImagesIn_cons _ _ (by decide)
      cases hIm : hasImagesIn base <;>
        simp [sysPrefixFor, hFC, hUA, h1, hIm]
    | false =>
      cases hIm : hasImagesIn base <;>
        simp [sysPrefixFor, hFC, hUA, hIm]

theorem sysPrefixFor_roles (a b c : Bool) :
    ∀ m ∈ sysPrefixFor a b c, m.role = "system" := by
  intro m hm
  unfold sysPrefixFor at hm
  simp only [List.mem_append] at hm
  rcases hm with (hm | hm) | hm <;> rw [List.mem_ite_nil_right] at hm <;>
    rcases hm with ⟨-, hm⟩ <;> rw [List.mem_singleton] at hm <;> subst hm <;> rfl

theorem countMsg_sysPrefixFor_fc (a b c : Bool) :
    countMsg (sysPrefixFor a b c) fileContentSystemMessage = if a then 1 else 0 := by
  cases a <;> cases b <;> cases c <;> decide

theorem countMsg_sysPrefixFor_ua (a b c : Bool) :
    countMsg (sysPrefixFor a b c) unsupportedSystemMessage = if b then 1 else 0 := by
  cases a <;> cases b <;> cases c <;> decide

theorem countMsg_sysPrefixFor_im (a b c : Bool) :
    countMsg (sysPrefixFor a b c) imagesSystemMessage = if c then 1 else 0 := by
  cases a <;> cases b <;> cases c <;> decide

/-- No conversation message equals a system message (role mismatch). -/
theorem countMsg_base_system (messages : List ChatMessage) (userText : String)
    (imgs : List String) (fts : List FileTextEntry) (ofns : List String) (forRegen : Bool)
    (x : ApiMessage) (hx : x.role = "system") :
    countMsg (baseApiMessages messages userText imgs fts ofns forRegen) x = 0 := by
  apply countMsg_eq_zero
  intro m hm heq
  rcases baseApiMessages_roles messages userText imgs fts ofns forRegen m hm with h | h <;>
    · rw [heq, hx] at h
      simp at h

/-- C2 (amended): for every request, exactly one file-content instruction
is injected when the conversation carries the extracted-file marker, one
unsupported-attachment instruction when it carries the unextracted-names
marker AND no extracted-file marker, and one image instruction when a
user message carries an image part; each at most once, and all injected
system messages precede the whole conversation history. -/
theorem c2_system_injection (messages : List ChatMessage) (userText : String)
    (imgs : List String) (fts : List FileTextEntry) (ofns : List String) (forRegen : Bool) :
    countMsg (buildOpenAIMessages messages userText imgs fts ofns forRegen)
        fileContentSystemMessage
      = (if hasAttachedFileContent (baseApiMessages messages userText imgs fts ofns forRegen)
         then 1 else 0)
    ∧ countMsg (buildOpenAIMessages messages userText imgs fts ofns forRegen)
        unsupportedSystemMessage
      = (if !hasAttachedFileContent (baseApiMessages messages userText imgs fts ofns forRegen)
            && hasUnsupportedMarker (baseApiMessages messages userText imgs fts ofns forRegen)
         then 1 else 0)
    ∧ countMsg (buildOpenAIMessages messages userText imgs fts ofns forRegen)
        imagesSystemMessage
      = (if hasImagesIn (baseApiMessages messages userText imgs fts ofns forRegen)
         then 1 else 0)
    ∧ ∃ sys, buildOpenAIMessages messages userText imgs fts ofns forRegen
          = sys ++ baseApiMessages messages userText imgs fts ofns forRegen
        ∧ ∀ m ∈ sys, m.role = "system" := by
  rw [buildOpenAIMessages_decomp]
  refine ⟨?_, ?_, ?_, _, rfl, sysPrefixFor_roles _ _ _⟩
  · rw [countMsg_append, countMsg_sysPrefixFor_fc,
      countMsg_base_system messages userText imgs fts ofns forRegen _ rfl]
    omega
  · rw [countMsg_append, countMsg_sysPrefixFor_ua,
      countMsg_base_system messages userText imgs fts ofns forRegen _ rfl]
    omega
  · rw [countMsg_append, countMsg_sysPrefixFor_im,
      countMsg_base_system messages userText imgs fts ofns forRegen _ rfl]
    omega

/-- C2 witness: a send with one extracted file text gets exactly one
file-content system instruction. -/
theorem c2_system_injection_witness :
    countMsg (buildOpenAIMessages [] "" [] [FileTextEntry.mk "a.txt" "T"] [] false)
      fileContentSystemMessage = 1 := by
  have h := (c2_system_injection [] "" [] [FileTextEntry.mk "a.txt" "T"] [] false).1
  rwa [if_pos (show hasAttachedFileContent
      (baseApiMessages [] "" [] [FileTextEntry.mk "a.txt" "T"] [] false) = true
    from by decide)] at h

/-- C2 counterexample: a single send whose new user turn carries both an
extracted file text and an unextracted file name. The conversation
contains the unextracted-file placeholder, yet no unsupported-attachment
system message is injected — its detection is gated behind
`!hasAttachedFileContent` (line 801). -/
theorem c2_counterexample :
    hasUnsupportedMarker
        (baseApiMessages [] "" [] [FileTextEntry.mk "a.pdf" "T"] ["b.bin"] false) = true
    ∧ countMsg (buildOpenAIMessages [] "" [] [FileTextEntry.mk "a.pdf" "T"] ["b.bin"] false)
        unsupportedSystemMessage = 0 := by decide

/-! ## C4: regenerate -/

theorem baseApiMessages_regen (messages : List ChatMessage) (userText : String)
    (imgs : List String) (fts : List FileTextEntry) (ofns : List String) :
    baseApiMessages messages userText imgs fts ofns true
      = messages.dropLast.map toApiMessage := by
  simp [baseApiMessages]

/-- The detection code always reads a user message's full rendered text. -/
theorem msgText_toApiMessage_user (u : ChatMessage) (hu : u.role = Role.user) :
    msgText (toApiMessage u)
      = some (buildMessageText u.content (u.fileTexts.getD []) (u.otherFileNames.getD [])) := by
  unfold toApiMessage
  rw [hu]
  cases him : u.imageDataUrls.getD [] with
  | nil => simp [msgText]
  | cons hd tl => simp [msgText, List.findSome?_cons]

/-- C4: for a chat ending in a user message then an assistant message,
regenerate builds a request whose conversation part is the history with
the assistant half removed — its final turn being exactly the conversion
of the last stored user message, whose text is the rendering of that
message's stored content and attachments — appends no new user message,
and replaces the stored history by itself minus its two most recent
messages plus the fresh assistant placeholder. -/
theorem c4_regenerate (ms : List ChatMessage) (u a : ChatMessage) (inputStr : String)
    (atts : List Attachment) (key userMsgId plId : String) (now : Int)
    (hu : u.role = Role.user) (ha : a.role = Role.assistant) (hkey : jsTrim key ≠ "") :
    ∃ out,
      sendMessageModel inputStr atts (ms ++ [u, a]) false key true userMsgId plId now
        = some out
      ∧ out.newMessages = ms ++ [assistantPlaceholder plId now]
      ∧ out.userMessage = none
      ∧ (∃ sys, out.request = sys ++ (ms ++ [u]).map toApiMessage
          ∧ ∀ m ∈ sys, m.role = "system")
      ∧ out.request.getLast? = some (toApiMessage u)
      ∧ msgText (toApiMessage u)
          = some (buildMessageText u.content (u.fileTexts.getD []) (u.otherFileNames.getD [])) := by
  have hfind : List.find? (fun m => decide (m.role = Role.user)) (a :: u :: ms.reverse)
      = some u := by
    rw [List.find?_cons_of_neg _ (by simp [ha]), List.find?_cons_of_pos _ (by simp [hu])]
  have hdrop : (ms ++ [u, a]).dropLast.dropLast = ms := by
    rw [show ms ++ [u, a] = (ms ++ [u]) ++ [a] by simp]
    rw [List.dropLast_concat, List.dropLast_concat]
  have hbase : baseApiMessages (ms ++ [u, a]) u.content (u.imageDataUrls.getD [])
      (u.fileTexts.getD []) (u.otherFileNames.getD []) true
      = (ms ++ [u]).map toApiMessage := by
    rw [baseApiMessages_regen]
    rw [show ms ++ [u, a] = (ms ++ [u]) ++ [a] by simp]
    rw [List.dropLast_concat]
  refine ⟨⟨buildOpenAIMessages (ms ++ [u, a]) u.content (u.imageDataUrls.getD [])
      (u.fileTexts.getD []) (u.otherFileNames.getD []) true,
      (ms ++ [u, a]).dropLast.dropLast ++ [assistantPlaceholder plId now],
      none⟩, ?_, ?_, rfl, ?_, ?_, msgText_toApiMessage_user u hu⟩
  · unfold sendMessageModel
    rw [if_neg hkey]
    have hc : ((true : Bool) = true ∧ 2 ≤ (ms ++ [u, a]).length) = True :=
      eq_true ⟨rfl, by simp⟩
    simp [hc, hfind]
  · show (ms ++ [u, a]).dropLast.dropLast ++ [assistantPlaceholder plId now]
      = ms ++ [assistantPlaceholder plId now]
    rw [hdrop]
  · have heq : buildOpenAIMessages (ms ++ [u, a]) u.content (u.imageDataUrls.getD [])
        (u.fileTexts.getD []) (u.otherFileNames.getD []) true
        = sysPrefixFor
            (hasAttachedFileContent ((ms ++ [u]).map toApiMessage))
            (!hasAttachedFileContent ((ms ++ [u]).map toApiMessage)
              && hasUnsupportedMarker ((ms ++ [u]).map toApiMessage))
            (hasImagesIn ((ms ++ [u]).map toApiMessage))
          ++ (ms ++ [u]).map toApiMessage := by
      rw [buildOpenAIMessages_decomp, hbase]
    exact ⟨_, heq, sysPrefixFor_roles _ _ _⟩
  · show (buildOpenAIMessages (ms ++ [u, a]) u.content (u.imageDataUrls.getD [])
        (u.fileTexts.getD []) (u.otherFileNames.getD []) true).getLast? = _
    rw [buildOpenAIMessages_decomp, hbase, List.getLast?_append]
    rw [show (ms ++ [u]).map toApiMessage = ms.map toApiMessage ++ [toApiMessage u] by simp]
    rw [List.getLast?_concat]
    rfl

/-- C4 witness: regenerating a two-message chat. -/
theorem c4_regenerate_witness :
    ∃ out,
      sendMessageModel "" [] ([] ++ [demoChatMessage, demoAssistantMessage]) false "key" true
          "u1" "pl" 9 = some out
      ∧ out.newMessages = [] ++ [assistantPlaceholder "pl" 9]
      ∧ out.userMessage = none
      ∧ (∃ sys, out.request = sys ++ ([] ++ [demoChatMessage]).map toApiMessage
          ∧ ∀ m ∈ sys, m.role = "system")
      ∧ out.request.getLast? = some (toApiMessage demoChatMessage)
      ∧ msgText (toApiMessage demoChatMessage)
          = some (buildMessageText demoChatMessage.content
              (demoChatMessage.fileTexts.getD []) (demoChatMessage.otherFileNames.getD [])) :=
  c4_regenerate [] demoChatMessage demoAssistantMessage "" [] "key" "u1" "pl" 9
    (by decide) (by decide) (by decide)

/-! ## C8: persistence round trip -/

/-- The local conversions are mutually inverse on in-memory messages. -/
theorem storedToMessage_messageToStored (c : DateCodec) (m : ChatMessage) :
    storedToMessage c (messageToStored c m) = m := by
  cases m
  simp [storedToMessage, messageToStored, c.parse_toISO]

theorem map_storedToMessage_messageToStored (c : DateCodec) (msgs : List ChatMessage) :
    (msgs.map (messageToStored c)).map (storedToMessage c) = msgs := by
  rw [List.map_map]
  simp [Function.comp_def, storedToMessage_messageToStored]

theorem replaceFirstChat_find (store : List StoredChat) (cid : String) (upd : StoredChat)
    (hupd : upd.id = cid) (h : store.any fun ch => decide (ch.id = cid)) :
    (replaceFirstChat store cid upd).find? (fun ch => decide (ch.id = cid)) = some upd := by
  induction store with
  | nil => cases h
  | cons ch rest ih =>
    unfold replaceFirstChat
    by_cases hc : ch.id = cid
    · rw [if_pos hc]
      exact List.find?_cons_of_pos _ (by simp [hupd])
    · rw [if_neg hc]
      rw [List.find?_cons_of_neg _ (by simp [hc])]
      apply ih
      rcases List.any_eq_true.mp h with ⟨x, hx, hpx⟩
      rcases List.mem_cons.mp hx with rfl | hx'
      · exact absurd (of_decide_eq_true hpx) hc
      · exact List.any_eq_true.mpr ⟨x, hx', hpx⟩

/-- The upsert of `persistCurrentChat` always makes the chat the first
id match afterwards. -/
theorem upsertChat_find (store : List StoredChat) (cid : String) (upd : StoredChat)
    (hupd : upd.id = cid) :
    (if store.any fun ch => decide (ch.id = cid)
     then replaceFirstChat store cid upd else store ++ [upd]).find?
      (fun ch => decide (ch.id = cid)) = some upd := by
  by_cases h : store.any fun ch => decide (ch.id = cid)
  · rw [if_pos h]
    exact replaceFirstChat_find store cid upd hupd h
  · rw [if_neg h]
    rw [List.find?_append]
    have hnone : store.find? (fun ch => decide (ch.id = cid)) = none := by
      rw [List.find?_eq_none]
      intro x hx hpx
      exact h (List.any_eq_true.mpr ⟨x, hx, hpx⟩)
    rw [hnone]
    rw [List.find?_cons_of_pos _ (by simp [hupd])]
    rfl

/-- C8, local half: after the local persist, looking the chat up by id
yields exactly the stored conversion of the in-memory messages, and
converting back restores them. -/
theorem persistCurrentChatLocal_find (c : DateCodec) (store : List StoredChat)
    (cid pid : String) (msgs : List ChatMessage) (title : Option String) (now : String) :
    ∃ u, (persistCurrentChatLocal c store cid pid msgs title now).find?
        (fun ch => decide (ch.id = cid)) = some u
      ∧ u.messages = msgs.map (messageToStored c)
      ∧ u.messages.map (storedToMessage c) = msgs := by
  simp only [persistCurrentChatLocal]
  exact ⟨_, upsertChat_find store cid _ rfl, rfl,
    map_storedToMessage_messageToStored c msgs⟩

theorem jsStartsWith_chatFileName (i : String) :
    jsStartsWith (chatFileName i) "chat2etc-chat-" = true := by
  unfold jsStartsWith chatFileName
  rw [List.isPrefixOf_iff_prefix]
  rw [show ("chat2etc-chat-" ++ i ++ ".json").data
      = "chat2etc-chat-".data ++ (i.data ++ ".json".data) from by
    simp [List.append_assoc]]
  exact List.prefix_append _ _

theorem jsEndsWith_chatFileName (i : String) :
    jsEndsWith (chatFileName i) ".json" = true := by
  unfold jsEndsWith chatFileName
  rw [List.isSuffixOf_iff_suffix]
  rw [show ("chat2etc-chat-" ++ i ++ ".json").data
      = ("chat2etc-chat-".data ++ i.data) ++ ".json".data from rfl]
  exact List.suffix_append _ _

theorem mem_insertByUpdated (c : DateCodec) (x a : StoredChat) (l : List StoredChat)
    (h : a = x ∨ a ∈ l) : a ∈ insertByUpdated c x l := by
  induction l with
  | nil =>
    rcases h with rfl | h
    · exact List.mem_singleton.mpr rfl
    · cases h
  | cons y ys ih =>
    unfold insertByUpdated
    by_cases hc : c.parse y.updatedAt ≤ c.parse x.updatedAt
    · rw [if_pos hc]
      rcases h with rfl | h
      · exact List.mem_cons_self _ _
      · exact List.mem_cons_of_mem _ h
    · rw [if_neg hc]
      rcases h with rfl | h
      · exact List.mem_cons_of_mem _ (ih (Or.inl rfl))
      · rcases List.mem_cons.mp h with rfl | h'
        · exact List.mem_cons_self _ _
        · exact List.mem_cons_of_mem _ (ih (Or.inr h'))

theorem mem_sortByUpdatedDesc (c : DateCodec) (l : List StoredChat) (a : StoredChat)
    (h : a ∈ l) : a ∈ sortByUpdatedDesc c l := by
  induction l with
  | nil => cases h
  | cons x xs ih =>
    unfold sortByUpdatedDesc
    rcases List.mem_cons.mp h with rfl | h'
    · exact mem_insertByUpdated c a a _ (Or.inl rfl)
    · exact mem_insertByUpdated c x a _ (Or.inr (ih h'))

theorem mem_collectChats (env : SPEnv) (lib : Library) (items : List FileItem)
    (i : FileItem) (chat : StoredChat) (hi : i ∈ items)
    (hread : (if env.contentOk i.ServerRelativeUrl
        then (lib.find? fun g => decide (g.1 = i.ServerRelativeUrl)).map (·.2)
        else none) = some chat)
    (hid : chat.id ≠ "") (hpid : chat.projectId ≠ "") :
    chat ∈ collectChats env lib items := by
  induction items with
  | nil => cases hi
  | cons f rest ih =>
    rcases List.mem_cons.mp hi with rfl | hi'
    · unfold collectChats
      simp only [hread]
      rw [if_pos ⟨hid, hpid⟩]
      exact List.mem_cons_self _ _
    · unfold collectChats
      cases hr : (if env.contentOk f.ServerRelativeUrl
          then (lib.find? fun g => decide (g.1 = f.ServerRelativeUrl)).map (·.2)
          else none) with
      | none =>
        simp only [hr]
        exact ih hi'
      | some c2 =>
        simp only [hr]
        by_cases hv : c2.id ≠ "" ∧ c2.projectId ≠ ""
        · rw [if_pos hv]
          exact List.mem_cons_of_mem _ (ih hi')
        · rw [if_neg hv]
          exact ih hi'

/-- C8 (amended): the conversions are mutually inverse; locally, a
persisted chat read back by id carries an identical message sequence; and
remotely, for a chat whose `id` and `projectId` are nonempty (which the
listing's validation requires), saving and re-listing returns the very
same stored chat, messages included. -/
theorem c8_roundtrip :
    (∀ (c : DateCodec) (m : ChatMessage), storedToMessage c (messageToStored c m) = m)
    ∧ (∀ (c : DateCodec) (store : List StoredChat) (cid pid : String)
        (msgs : List ChatMessage) (title : Option String) (now : String),
        ∃ u, (persistCurrentChatLocal c store cid pid msgs title now).find?
            (fun ch => decide (ch.id = cid)) = some u
          ∧ u.messages = msgs.map (messageToStored c)
          ∧ u.messages.map (storedToMessage c) = msgs)
    ∧ (∀ (c : DateCodec) (env : SPEnv) (lib : Library) (chat : StoredChat) (n : Nat)
        (fu : String),
        env.itemsOk = true → env.addOk = true → env.folderResp = .ok fu →
        env.contentOk (chatFileName chat.id) = true →
        chat.id ≠ "" → chat.projectId ≠ "" →
        ∃ lib', saveChatToLibrary env lib chat = .ok lib'
          ∧ ∃ res, getChatsFromLibrary c env lib' (some n) = .ok res ∧ chat ∈ res) := by
  refine ⟨storedToMessage_messageToStored, persistCurrentChatLocal_find, ?_⟩
  intro c env lib chat n fu hitems hadd hfolder hcontent hid hpid
  set fname := chatFileName chat.id with hfname
  set lib' : Library := (lib.filter fun f => decide (f.1 ≠ fname)) ++ [(fname, chat)]
    with hlib'
  have hsave : saveChatToLibrary env lib chat = .ok lib' := by
    unfold saveChatToLibrary getFolderServerRelativeUrl
    rw [hfolder]
    show (if env.addOk = true then _ else _) = _
    rw [if_pos hadd]
  refine ⟨lib', hsave, ?_⟩
  have hmyitems : getMyFileItems env lib' (some n)
      = .ok (lib'.map fun f => ⟨f.1, f.1⟩) := by
    unfold getMyFileItems getCurrentUserId
    show (if env.itemsOk = true then _ else _) = _
    rw [if_pos hitems]
  refine ⟨sortByUpdatedDesc c (collectChats env lib'
      ((lib'.map fun f => (⟨f.1, f.1⟩ : FileItem)).filter fun f =>
        jsStartsWith f.Name "chat2etc-chat-" && jsEndsWith f.Name ".json")), ?_, ?_⟩
  · unfold getChatsFromLibrary
    rw [hmyitems]
    rfl
  · apply mem_sortByUpdatedDesc
    have hfi : (⟨fname, fname⟩ : FileItem) ∈
        (lib'.map fun f => (⟨f.1, f.1⟩ : FileItem)).filter fun f =>
          jsStartsWith f.Name "chat2etc-chat-" && jsEndsWith f.Name ".json" := by
      rw [List.mem_filter]
      constructor
      · exact List.mem_map.mpr ⟨(fname, chat),
          List.mem_append_right _ (List.mem_singleton.mpr rfl), rfl⟩
      · rw [hfname]
        simp [jsStartsWith_chatFileName, jsEndsWith_chatFileName]
    apply mem_collectChats env lib' _ ⟨fname, fname⟩ chat hfi _ hid hpid
    rw [if_pos hcontent]
    have hfindlib : lib'.find? (fun g => decide (g.1 = fname)) = some (fname, chat) := by
      rw [hlib', List.find?_append]
      have h1 : (lib.filter fun f => decide (f.1 ≠ fname)).find?
          (fun g => decide (g.1 = fname)) = none := by
        rw [List.find?_eq_none]
        intro x hx
        rcases List.mem_filter.mp hx with ⟨-, hxne⟩
        simp at hxne ⊢
        exact hxne
      rw [h1]
      rw [List.find?_cons_of_pos _ (by simp)]
      rfl
    rw [hfindlib]
    rfl

/-- C8 witness: the three amended parts at concrete inputs. -/
theorem c8_roundtrip_witness :
    storedToMessage unaryCodec (messageToStored unaryCodec demoChatMessage) = demoChatMessage
    ∧ (∃ u, (persistCurrentChatLocal unaryCodec [] "c1" "p1" [demoChatMessage] none "++").find?
          (fun ch => decide (ch.id = "c1")) = some u
        ∧ u.messages = [demoChatMessage].map (messageToStored unaryCodec)
        ∧ u.messages.map (storedToMessage unaryCodec) = [demoChatMessage])
    ∧ (∃ lib', saveChatToLibrary envAllOk [] demoChat = .ok lib'
        ∧ ∃ res, getChatsFromLibrary unaryCodec envAllOk lib' (some 7) = .ok res
            ∧ demoChat ∈ res) := by
  have h := c8_roundtrip
  exact ⟨h.1 unaryCodec demoChatMessage,
    h.2.1 unaryCodec [] "c1" "p1" [demoChatMessage] none "++",
    h.2.2 unaryCodec envAllOk [] demoChat 7 "/sites/demo/ChatLib"
      (by decide) (by decide) (by decide) (by decide) (by decide) (by decide)⟩

/-- C8 counterexample: a chat with an empty id saves fine remotely, but
listing drops it — the persisted chat cannot be read back at all, so the
round trip is not the identity for every chat. -/
theorem c8_counterexample :
    saveChatToLibrary envAllOk [] emptyIdChat
      = Except.ok [(chatFileName "", emptyIdChat)]
    ∧ getChatsFromLibrary unaryCodec envAllOk [(chatFileName "", emptyIdChat)] (some 7)
      = Except.ok [] := by decide

/-! ## C1: attachment character budget -/

theorem jsTake_length (s : String) (k : Nat) : (jsTake s k).length = min k s.length := by
  show (s.data.take k).length = min k s.data.length
  rw [List.length_take]

theorem sumTextLen_cons (a : Attachment) (l : List Attachment) :
    sumTextLen (a :: l) = textLen a + sumTextLen l := by
  simp [sumTextLen]

/-- The running `totalChars` advances by exactly the accepted attachment's
stored text length. -/
theorem processOneFile_snd (f : FileInput) (tc : Nat) :
    (processOneFile f tc).2 = tc + textLen (processOneFile f tc).1 := by
  unfold processOneFile extractWithBudget
  split
  · cases hfc : f.content <;> simp [textLen]
  · split
    · cases hfc : f.content <;> simp [textLen]
    · split
      · cases hfc : f.content <;> simp [textLen]
      · split
        · cases hfc : f.content <;> simp [textLen]
        · split
          · cases hfc : f.content <;> simp [textLen]
          · simp [textLen]

/-- Once the budget is exhausted every extraction gate is closed: the file
yields no text and the counter does not move. -/
theorem processOneFile_exhausted (f : FileInput) (tc : Nat)
    (h : MAX_TOTAL_TEXT_CHARS ≤ tc) :
    (processOneFile f tc).1.textContent = none ∧ (processOneFile f tc).2 = tc := by
  have hn : ¬ tc < MAX_TOTAL_TEXT_CHARS := not_lt.mpr h
  unfold processOneFile
  split
  · cases hfc : f.content <;> simp
  · rw [if_neg (fun hc => hn hc.2), if_neg (fun hc => hn hc.2),
      if_neg (fun hc => hn hc.2), if_neg (fun hc => hn hc.2)]
    simp

/-- One extraction never drives the counter past budget plus marker. -/
theorem extractWithBudget_snd_le (f : FileInput) (tc : Nat)
    (h : tc < MAX_TOTAL_TEXT_CHARS) :
    (extractWithBudget f tc).2 ≤ MAX_TOTAL_TEXT_CHARS + truncationMarker.length := by
  unfold extractWithBudget
  cases hfc : f.content with
  | error e =>
    show tc ≤ _
    omega
  | ok text =>
    by_cases hcut : MAX_TOTAL_TEXT_CHARS - tc < text.length
    · simp only [eq_true hcut, if_true]
      show tc + (jsTake text (MAX_TOTAL_TEXT_CHARS - tc) ++ truncationMarker).length ≤ _
      rw [String.length_append, jsTake_length, Nat.min_eq_left (Nat.le_of_lt hcut)]
      omega
    · simp only [eq_false hcut, if_false]
      show tc + text.length ≤ _
      have hle : text.length ≤ MAX_TOTAL_TEXT_CHARS - tc := not_lt.mp hcut
      omega

/-- One step never drives the counter past budget plus marker. -/
theorem processOneFile_snd_le (f : FileInput) (tc : Nat)
    (h : tc < MAX_TOTAL_TEXT_CHARS) :
    (processOneFile f tc).2 ≤ MAX_TOTAL_TEXT_CHARS + truncationMarker.length := by
  unfold processOneFile
  split
  · cases hfc : f.content with
    | ok d =>
      show tc ≤ _
      omega
    | error e =>
      show tc ≤ _
      omega
  · split
    · exact extractWithBudget_snd_le f tc h
    · split
      · exact extractWithBudget_snd_le f tc h
      · split
        · exact extractWithBudget_snd_le f tc h
        · split
          · exact extractWithBudget_snd_le f tc h
          · show tc ≤ _
            omega

theorem onFileChangeGo_exhausted (files : List FileInput) :
    ∀ count tc, MAX_TOTAL_TEXT_CHARS ≤ tc →
      ∀ a ∈ onFileChangeGo files count tc, a.textContent = none := by
  induction files with
  | nil =>
    intro count tc _ a ha
    cases ha
  | cons f rest ih =>
    intro count tc h a ha
    unfold onFileChangeGo at ha
    by_cases hcount : count < MAX_FILES_PER_MESSAGE
    · rw [if_pos hcount] at ha
      by_cases hsize : (if isImageFile f then MAX_IMAGE_SIZE_BYTES else MAX_FILE_SIZE_BYTES)
          < f.size
      · rw [if_pos hsize] at ha
        exact ih count tc h a ha
      · rw [if_neg hsize] at ha
        rcases List.mem_cons.mp ha with rfl | ha'
        · exact (processOneFile_exhausted f tc h).1
        · refine ih (count + 1) _ ?_ a ha'
          rw [(processOneFile_exhausted f tc h).2]
          exact h
    · rw [if_neg hcount] at ha
      cases ha

theorem sumTextLen_eq_zero (l : List Attachment)
    (h : ∀ a ∈ l, a.textContent = none) : sumTextLen l = 0 := by
  induction l with
  | nil => rfl
  | cons a t ih =>
    rw [sumTextLen_cons]
    have h0 : textLen a = 0 := by
      unfold textLen
      rw [h a (List.mem_cons_self a t)]
    rw [h0, ih fun x hx => h x (List.mem_cons_of_mem a hx)]

/-- The budget invariant over the loop: starting below the budget, the
final accounted total — initial counter plus every stored text length —
stays within budget plus one truncation marker. -/
theorem onFileChangeGo_budget (files : List FileInput) :
    ∀ count tc, tc < MAX_TOTAL_TEXT_CHARS →
      tc + sumTextLen (onFileChangeGo files count tc)
        ≤ MAX_TOTAL_TEXT_CHARS + truncationMarker.length := by
  induction files with
  | nil =>
    intro count tc h
    unfold onFileChangeGo
    simp [sumTextLen]
    omega
  | cons f rest ih =>
    intro count tc h
    unfold onFileChangeGo
    by_cases hcount : count < MAX_FILES_PER_MESSAGE
    · rw [if_pos hcount]
      by_cases hsize : (if isImageFile f then MAX_IMAGE_SIZE_BYTES else MAX_FILE_SIZE_BYTES)
          < f.size
      · rw [if_pos hsize]
        exact ih count tc h
      · rw [if_neg hsize]
        rw [sumTextLen_cons]
        have hsnd := processOneFile_snd f tc
        have hle := processOneFile_snd_le f tc h
        by_cases h2 : (processOneFile f tc).2 < MAX_TOTAL_TEXT_CHARS
        · have := ih (count + 1) _ h2
          omega
        · have hz : sumTextLen (onFileChangeGo rest (count + 1) (processOneFile f tc).2)
              = 0 :=
            sumTextLen_eq_zero _
              (onFileChangeGo_exhausted rest (count + 1) _ (not_lt.mp h2))
          omega
    · rw [if_neg hcount]
      simp [sumTextLen]
      omega

/-- Once the lengths stored up to position `j` reach the budget, the
attachment at `j` carries no text. -/
theorem onFileChangeGo_exhaust_tail (files : List FileInput) :
    ∀ count tc (j : Nat) (a : Attachment),
      MAX_TOTAL_TEXT_CHARS ≤ tc + sumTextLen ((onFileChangeGo files count tc).take j) →
      (onFileChangeGo files count tc)[j]? = some a →
      a.textContent = none := by
  induction files with
  | nil =>
    intro count tc j a _ hget
    unfold onFileChangeGo at hget
    simp at hget
  | cons f rest ih =>
    intro count tc j a hsum hget
    unfold onFileChangeGo at hsum hget
    by_cases hcount : count < MAX_FILES_PER_MESSAGE
    · rw [if_pos hcount] at hsum hget
      by_cases hsize : (if isImageFile f then MAX_IMAGE_SIZE_BYTES else MAX_FILE_SIZE_BYTES)
          < f.size
      · rw [if_pos hsize] at hsum hget
        exact ih count tc j a hsum hget
      · rw [if_neg hsize] at hsum hget
        cases j with
        | zero =>
          rw [List.getElem?_cons_zero] at hget
          have h80 : MAX_TOTAL_TEXT_CHARS ≤ tc := by
            simpa using hsum
          obtain rfl : (processOneFile f tc).1 = a := by
            exact Option.some_injective _ hget
          exact (processOneFile_exhausted f tc h80).1
        | succ j' =>
          rw [List.getElem?_cons_succ] at hget
          rw [List.take_succ_cons, sumTextLen_cons] at hsum
          have hsnd := processOneFile_snd f tc
          exact ih (count + 1) _ j' a (by omega) hget
    · rw [if_neg hcount] at hget
      simp at hget

/-- C1 (amended): across one batch, the sum of stored extracted-text
lengths never exceeds the character budget plus the length of the one
truncation marker (80015 = 80000 + 15; the marker itself is counted
against `totalChars`, so the pre-marker text never exceeds the budget);
a file whose extraction overshoots the remaining budget is stored as the
truncated slice with the marker appended; and any attachment after the
point where the stored lengths reach the budget carries no text at all. -/
theorem c1_budget_invariant (files : List FileInput) :
    sumTextLen (onFileChangeList files)
      ≤ MAX_TOTAL_TEXT_CHARS + truncationMarker.length
    ∧ (∀ (f : FileInput) (tc : Nat) (text : String), f.content = .ok text →
        tc < MAX_TOTAL_TEXT_CHARS → MAX_TOTAL_TEXT_CHARS - tc < text.length →
        (extractWithBudget f tc).1.textContent
          = some (jsTake text (MAX_TOTAL_TEXT_CHARS - tc) ++ truncationMarker))
    ∧ (∀ (j : Nat) (a : Attachment),
        MAX_TOTAL_TEXT_CHARS ≤ sumTextLen ((onFileChangeList files).take j) →
        (onFileChangeList files)[j]? = some a →
        a.textContent = none) := by
  refine ⟨?_, ?_, ?_⟩
  · have h := onFileChangeGo_budget files 0 0 (by decide)
    unfold onFileChangeList
    omega
  · intro f tc text hcontent hlt hcut
    unfold extractWithBudget
    rw [hcontent]
    simp only [eq_true hcut, if_true]
  · intro j a hsum hget
    exact onFileChangeGo_exhaust_tail files 0 0 j a (by simpa using hsum) hget

/-- C1 witness: the batch bound at a small batch, and the truncation
equation where two characters meet a one-character remaining budget. -/
theorem c1_budget_witness :
    sumTextLen (onFileChangeList [smallTextFile])
      ≤ MAX_TOTAL_TEXT_CHARS + truncationMarker.length
    ∧ (extractWithBudget smallTextFile 79999).1.textContent
        = some (jsTake "ab" (MAX_TOTAL_TEXT_CHARS - 79999) ++ truncationMarker) :=
  ⟨(c1_budget_invariant [smallTextFile]).1,
   (c1_budget_invariant []).2.1 smallTextFile 79999 "ab" rfl (by decide) (by decide)⟩

/-- Overshooting extraction stores the truncated slice plus marker and
accounts its full stored length. -/
theorem extractWithBudget_ok (f : FileInput) (tc : Nat) (text : String)
    (h : f.content = .ok text) (hcut : MAX_TOTAL_TEXT_CHARS - tc < text.length) :
    extractWithBudget f tc
      = ({ name := f.name,
           textContent := some (jsTake text (MAX_TOTAL_TEXT_CHARS - tc)
             ++ truncationMarker) },
         tc + (jsTake text (MAX_TOTAL_TEXT_CHARS - tc) ++ truncationMarker).length) := by
  unfold extractWithBudget
  rw [h]
  simp only [eq_true hcut, if_true]

/-- C1 counterexample: a single 80001-character text file. Its stored
text is the 80000-character slice plus the 15-character marker, so the
batch's stored extracted-text total is 80015, exceeding
MAX_TOTAL_TEXT_CHARS = 80000 — the claim's bound fails as stated. -/
theorem c1_counterexample :
    MAX_TOTAL_TEXT_CHARS < sumTextLen (onFileChangeList [overBudgetFile]) := by
  have hlen : overBudgetText.length = 80001 := by
    show (List.replicate 80001 'a').length = 80001
    rw [List.length_replicate]
  have hc1 : MAX_TOTAL_TEXT_CHARS - 0 < overBudgetText.length := by
    rw [hlen]
    decide
  have hx := extractWithBudget_ok overBudgetFile 0 overBudgetText rfl hc1
  have heval : onFileChangeList [overBudgetFile]
      = [{ name := overBudgetFile.name,
           textContent := some (jsTake overBudgetText (MAX_TOTAL_TEXT_CHARS - 0)
             ++ truncationMarker) }] := by
    unfold onFileChangeList onFileChangeGo processOneFile
    rw [if_pos (show (0 : Nat) < MAX_FILES_PER_MESSAGE by decide)]
    rw [if_neg (show ¬ ((if isImageFile overBudgetFile then MAX_IMAGE_SIZE_BYTES
        else MAX_FILE_SIZE_BYTES) < overBudgetFile.size) from by decide)]
    rw [if_neg (show ¬ (isImageFile overBudgetFile = true) from by decide)]
    rw [if_neg (show ¬ (isPdfFile overBudgetFile = true ∧ 0 < MAX_TOTAL_TEXT_CHARS)
      from by decide)]
    rw [if_neg (show ¬ (isDocxFile overBudgetFile = true ∧ 0 < MAX_TOTAL_TEXT_CHARS)
      from by decide)]
    rw [if_neg (show ¬ (isXlsxFile overBudgetFile = true ∧ 0 < MAX_TOTAL_TEXT_CHARS)
      from by decide)]
    rw [if_pos (show isLikelyTextFile overBudgetFile = true ∧ 0 < MAX_TOTAL_TEXT_CHARS
      from ⟨by decide, by decide⟩)]
    rw [hx]
    rw [show (∀ c t, onFileChangeGo [] c t = ([] : List Attachment)) from fun c t => rfl]
  rw [heval, sumTextLen_cons]
  have ht : textLen ({ name := overBudgetFile.name,
                       textContent := some (jsTake overBudgetText (MAX_TOTAL_TEXT_CHARS - 0)
                         ++ truncationMarker) } : Attachment)
      = (jsTake overBudgetText (MAX_TOTAL_TEXT_CHARS - 0) ++ truncationMarker).length := rfl
  rw [ht, String.length_append, jsTake_length, hlen]
  have hm : truncationMarker.length = 15 := by decide
  have hM : MAX_TOTAL_TEXT_CHARS = 80000 := rfl
  rw [show sumTextLen [] = 0 from rfl]
  omega

end EtcCopilot
